import Mathlib

/-!
Verification development for the rm-smfollowing repository.

The Python sources are shallowly embedded as Lean definitions:

* string normalization and JSON-list loading (src/compare.py),
* the resolver computing the unfollow target list (src/compare.py, compare),
* the whitelist loader of the web-API edition (unfollow.py, load_whitelist),
* the rate-limit phrase monitor (src/helpers.py, check_for_rate_limit),
* the auto-pause cooldown loop (src/helpers.py, auto_pause_after_rate_limit),
* the modal scroll loop (src/get_following.py, _scroll_modal_to_end),
* the username extractor (src/get_following.py, _extract_usernames),
* the harvest retry loop (src/get_following.py, scrape_following),
* the throttled unfollow session (src/unfollow.py, run_unfollow_session).

Python sets of normalized identifiers are modeled as deduplicated lists
together with an insertion sort, so that every definition is executable and
kernel-reducible.  Wall-clock time is modeled as exact rational seconds;
every random sample (delays, pauses) is an explicit input constrained to the
interval the corresponding random call draws from.
-/

namespace Bot

/-! ### String primitives

Python str.lower / str.strip / str.split / str.replace are modeled by
structural recursion over the character list of the string, so that all of
them reduce inside the kernel. -/

/-- Lower-case every character, as Python str.lower does for ASCII input. -/
def toLowerL (l : List Char) : List Char := l.map Char.toLower

/-- Drop leading and trailing whitespace, as Python str.strip does. -/
def trimL (l : List Char) : List Char :=
  ((l.dropWhile Char.isWhitespace).reverse.dropWhile Char.isWhitespace).reverse

/-- Normalization of one identifier, from compare.py line 72:
u.lower().strip() applied to a handle. -/
def normOne (u : String) : String := String.mk (trimL (toLowerL u.data))

/-- The normalized multiset of a loaded identifier list, from the set
comprehension in compare.py lines 72-74: empty entries are dropped (the
Python truthiness filter), the rest are normalized. -/
def normList (l : List String) : List String :=
  (l.filter (fun u => u ≠ "")).map normOne

/-- Lexicographic code-point comparison of character lists; the order Python
uses to compare strings. -/
def leL : List Char → List Char → Bool
  | [], _ => true
  | _ :: _, [] => false
  | c :: cs, d :: ds =>
    if c.val < d.val then true
    else if d.val < c.val then false
    else leL cs ds

/-- Lexicographic code-point comparison of strings. -/
def strLe (a b : String) : Bool := leL a.data b.data

/-- Insert a string into a sorted list, keeping ascending order. -/
def insertSorted (x : String) : List String → List String
  | [] => [x]
  | y :: ys => if strLe x y then x :: y :: ys else y :: insertSorted x ys

/-- Ascending insertion sort on strings; models Python sorted() on a set of
strings (lexicographic ascending on code points). -/
def sortStrings (l : List String) : List String := l.foldr insertSorted []

/-! ### JSON list files (compare.py load_json_list, unfollow.py load_whitelist) -/

/-- The observable shapes of one of the JSON data files.  missing models
FileNotFoundError, malformed models json.JSONDecodeError, jlist a top-level
JSON array of handles, jdict a top-level object whose optional whitelist key
holds an array of handles. -/
inductive JsonFile where
  | missing : JsonFile
  | malformed : JsonFile
  | jlist : List String → JsonFile
  | jdict : Option (List String) → JsonFile

/-- compare.py lines 27-43: load a JSON file expected to contain a list.
Missing files and JSON decode errors are caught and yield the empty list; a
dict yields its whitelist key or the empty list. -/
def load_json_list : JsonFile → List String
  | .missing => []
  | .malformed => []
  | .jlist l => l
  | .jdict w => w.getD []

/-- unfollow.py lines 44-56 (web-API edition): load the whitelist as a set of
normalized handles; FileNotFoundError and every other exception yield the
empty set.  The set is modeled as a deduplicated list of normalized handles. -/
def load_whitelist : JsonFile → List String
  | .missing => []
  | .malformed => []
  | .jlist l => (normList l).dedup
  | .jdict w => (normList (w.getD [])).dedup

/-- The three data files compare.py reads. -/
structure FileEnv where
  followingFile : JsonFile
  followersFile : JsonFile
  whitelistFile : JsonFile

/-- compare.py lines 46-91: compute the sorted target list.  When an argument
is None the corresponding snapshot file is loaded.  The three Python sets of
normalized handles and the expression following_set - followers_set -
whitelist_set followed by sorted() are modeled as a membership filter over
the normalized following list, deduplicated and insertion-sorted. -/
def compare (env : FileEnv) (following followers : Option (List String)) :
    List String :=
  let f := following.getD (load_json_list env.followingFile)
  let fo := followers.getD (load_json_list env.followersFile)
  let w := load_json_list env.whitelistFile
  sortStrings
    (((normList f).filter
      (fun u => decide (u ∉ normList fo ∧ u ∉ normList w))).dedup)

/-- Modelled from the spec: the Mode A formula of section 4.4,
result = sort(following − whitelist), with nothing else subtracted.  This is
the comparison target for claim C1, not a translation of the source. -/
def spec_mode_a (F W : List String) : List String :=
  sortStrings (((normList F).filter (fun u => decide (u ∉ normList W))).dedup)

/-! ### Rate-limit phrase monitor (helpers.py lines 44-69) -/

/-- helpers.py lines 44-52: the fixed marker phrases. -/
def RATE_LIMIT_PHRASES : List String :=
  ["Try Again Later",
   "Action Blocked",
   "Please Wait",
   "Protecting our community",
   "We restrict certain activity",
   "Please Slow Down",
   "Something went wrong"]

/-- Contiguous-substring test on character lists, the meaning of the Python
in operator on strings. -/
def hasInfixL (p : List Char) : List Char → Bool
  | [] => p.isPrefixOf []
  | c :: rest => p.isPrefixOf (c :: rest) || hasInfixL p rest

/-- One membership test of the loop body in helpers.py line 64:
phrase.lower() in page_text.lower(), i.e. a case-insensitive substring
test. -/
def phraseHits (phrase content : String) : Bool :=
  hasInfixL (toLowerL phrase.data) (toLowerL content.data)

/-- The for-loop of check_for_rate_limit: return True at the first phrase
found, False when the list is exhausted. -/
def checkLoop (phrases : List String) (content : String) : Bool :=
  match phrases with
  | [] => false
  | p :: rest => if phraseHits p content then true else checkLoop rest content

/-- helpers.py lines 55-69: scan the page text for any known rate-limit
phrase.  The driver interaction is abstracted to the page text itself. -/
def check_for_rate_limit (content : String) : Bool :=
  checkLoop RATE_LIMIT_PHRASES content

/-! ### Cooldown controller (helpers.py lines 95-111) -/

/-- The sleep chunks of the countdown loop in auto_pause_after_rate_limit:
for remaining in range(seconds, 0, -60): time.sleep(min(60, remaining)).
Each list entry is one sleep duration in seconds, preceded in the source by
one progress log line. -/
def pauseChunks (seconds : ℕ) : List ℕ :=
  if h : seconds = 0 then []
  else min 60 seconds :: pauseChunks (seconds - 60)
  termination_by seconds
  decreasing_by exact Nat.sub_lt (Nat.pos_of_ne_zero h) (by norm_num)

/-- The cooldown controller as invoked at the call sites
(if check_for_rate_limit(driver): auto_pause_after_rate_limit()): given the
monitor result and the sampled total pause in seconds
(int(round(uniform(10, 20), 1) * 60), always between 600 and 1200), it
returns the list of sleep chunks performed before control returns. -/
def auto_pause_after_rate_limit (detected : Bool) (sampledSeconds : ℕ) :
    List ℕ :=
  if detected then pauseChunks sampledSeconds else []

/-! ### Modal scroll loop (get_following.py lines 173-211, identical in
get_followers.py lines 146-184) -/

/-- get_following.py line 43. -/
def MAX_SCROLL_ROUNDS : ℕ := 200

/-- The scroll loop of _scroll_modal_to_end.  marker r is the scrollTop
value the browser reports after the scroll of round r (a natural number,
read as an integer because last_height starts at -1).  The function returns
the number of rounds executed: fuel counts the remaining iterations of
for _ in range(MAX_SCROLL_ROUNDS), r the rounds already executed, last the
last_height variable and stale the stale_rounds counter.  The two exception
paths of the source are abstracted as not occurring: the end-of-round
rate-limit check (a cooldown pause that touches neither last_height nor
stale_rounds) and the stale-element relocation of the modal handle. -/
def scroll_modal_aux (marker : ℕ → ℕ) : ℕ → ℕ → ℤ → ℕ → ℕ
  | 0, r, _, _ => r
  | fuel + 1, r, last, stale =>
    if ((marker r : ℤ)) = last then
      (if 3 ≤ stale + 1 then r + 1
       else scroll_modal_aux marker fuel (r + 1) (marker r) (stale + 1))
    else scroll_modal_aux marker fuel (r + 1) (marker r) 0

/-- Number of scroll rounds one pass of _scroll_modal_to_end executes
against a source whose extent marker trace is marker. -/
def scroll_modal_rounds (marker : ℕ → ℕ) : ℕ :=
  scroll_modal_aux marker MAX_SCROLL_ROUNDS 0 (-1) 0

/-- The harvest of one scroll pass: content r is the set of identifiers
loaded in the modal after round r has executed; the extraction that follows
the scroll loop reads the container at the last executed round. -/
def scroll_harvest (marker : ℕ → ℕ) (content : ℕ → Finset String) :
    Finset String :=
  content (scroll_modal_rounds marker - 1)

/-! ### Username extraction (get_following.py lines 214-269, identical in
get_followers.py lines 186-239) -/

/-- The host prefix removed by
href.replace("https://www.instagram.com", ""). -/
def HOST : List Char := "https://www.instagram.com".data

/-- Remove every occurrence of pat, scanning left to right, as Python
str.replace with an empty replacement does.  fuel is the length of the
remaining input, which bounds the recursion because every step consumes at
least one character. -/
def removeAllGo (pat : List Char) : ℕ → List Char → List Char
  | _, [] => []
  | 0, s => s
  | fuel + 1, c :: rest =>
    if pat ≠ [] ∧ pat.isPrefixOf (c :: rest) then
      removeAllGo pat fuel (rest.drop (pat.length - 1))
    else c :: removeAllGo pat fuel rest

/-- Python s.replace(pat, ""). -/
def removeAll (pat s : List Char) : List Char := removeAllGo pat s.length s

/-- Python s.split("/"): cut at every slash, keeping empty segments.
fuel is the length of the remaining input. -/
def splitSlashGo : ℕ → List Char → List Char → List (List Char)
  | _, acc, [] => [acc.reverse]
  | 0, acc, s => [acc.reverse ++ s]
  | fuel + 1, acc, c :: rest =>
    if c = '/' then acc.reverse :: splitSlashGo fuel [] rest
    else splitSlashGo fuel (c :: acc) rest

/-- Python s.split("/"). -/
def splitSlash (s : List Char) : List (List Char) := splitSlashGo s.length [] s

/-- get_following.py lines 242 and 260: the path segments that are never
usernames. -/
def NAV_SEGMENTS : List String := ["explore", "accounts", "p", "reels", "stories"]

/-- get_following.py line 239: parts = the nonempty slash-separated segments
of the href with the host removed; a username candidate only when exactly one
segment remains. -/
def hrefUsername (href : String) : Option String :=
  match (splitSlash (removeAll HOST href.data)).filter (fun p => p ≠ []) with
  | [u] => some (String.mk u)
  | _ => none

/-- The accumulation loop of _extract_usernames (lines 237-244): seen is the
set of usernames already emitted; a candidate is appended when it is
nonempty, not a navigation segment and not seen. -/
def extractLoop : List String → List String → List String
  | [], _ => []
  | href :: rest, seen =>
    match hrefUsername href with
    | some uname =>
      if uname ≠ "" ∧ uname ∉ NAV_SEGMENTS ∧ uname ∉ seen then
        uname :: extractLoop rest (uname :: seen)
      else extractLoop rest seen
    | none => extractLoop rest seen

/-- get_following.py lines 214-269: extract the usernames from the anchor
hrefs collected inside the dialog. -/
def extract_usernames (hrefs : List String) : List String := extractLoop hrefs []

/-! ### Harvest retry loop (get_following.py lines 276-353) -/

/-- What one scrape attempt observes: whether the modal container was
located, the expected-count hint read from the profile header (0 when it
could not be determined, matching _read_expected_count), and the username
list the extraction step produces after scrolling. -/
structure Attempt where
  modalFound : Bool
  expected : ℕ
  extracted : List String

/-- get_following.py line 337: int(expected_count * COUNT_THRESHOLD) with
COUNT_THRESHOLD = 0.90.  For every count below 10^14 the double-precision
product expected * 0.90 truncates to the same integer as the exact rational
9 * expected / 10, so the Python expression is embedded as natural floor
division. -/
def count_threshold (e : ℕ) : ℕ := 9 * e / 10

/-- The count-verification test of line 337: an attempt is judged incomplete
when an expected count was obtained and the scraped count is strictly below
the truncated threshold. -/
def judged_incomplete (a : Attempt) : Prop :=
  a.expected ≠ 0 ∧ a.extracted.length < count_threshold a.expected

instance (a : Attempt) : Decidable (judged_incomplete a) := by
  unfold judged_incomplete; infer_instance

/-- The for-loop of scrape_following, attempts numbered from 1 as in
range(1, MAX_RETRIES + 2): a missing modal skips the attempt; an accepted
count (or exhausted retries, attempt > MAX_RETRIES = 2) returns the current
extraction; otherwise the next attempt runs.  An exhausted loop returns the
empty list. -/
def scrape_loop : List Attempt → ℕ → List String
  | [], _ => []
  | a :: rest, attempt =>
    if a.modalFound = false then scrape_loop rest (attempt + 1)
    else if judged_incomplete a then
      (if attempt ≤ 2 then scrape_loop rest (attempt + 1) else a.extracted)
    else a.extracted

/-- get_following.py lines 276-353: the full scrape with count verification
and retry, over the three attempt environments the loop can consume. -/
def scrape_following (a1 a2 a3 : Attempt) : List String :=
  scrape_loop [a1, a2, a3] 1

/-! ### Throttled unfollow session (src/unfollow.py lines 195-297)

Wall-clock time is modeled as exact rational seconds.  Each loop iteration
consumes one IterIn record carrying the oracle outcome of unfollow_user for
that target together with the durations the random calls of that iteration
draw; IterIn.valid pins every sample to the interval of its generator. -/

/-- unfollow.py line 44. -/
def MAX_UNFOLLOWS_PER_HOUR : ℕ := 20

/-- The four return values of unfollow_user (line 141). -/
inductive Outcome where
  | unfollowed : Outcome
  | skipped_private : Outcome
  | not_following : Outcome
  | error : Outcome
deriving DecidableEq

/-- The per-iteration oracle: the classification unfollow_user returns, the
wall-clock seconds that call itself consumes, and the random samples of the
iteration (the 170-240 s pacing draw, the 60-120 s error backoff draw, the
0.3-1.2 s brief pause draw and the 0.5-1.5 s dry-run pause draw). -/
structure IterIn where
  outcome : Outcome
  procTime : ℚ
  unfollowDelay : ℕ
  errorBackoff : ℕ
  brief : ℚ
  dryPause : ℚ

/-- The ranges the random calls of unfollow.py and helpers.py draw from:
random.randint(170, 240), random.randint(60, 120),
random.uniform(0.3, 1.2), random.uniform(0.5, 1.5); processing time is
nonnegative. -/
def IterIn.valid (i : IterIn) : Prop :=
  0 ≤ i.procTime ∧
  170 ≤ i.unfollowDelay ∧ i.unfollowDelay ≤ 240 ∧
  60 ≤ i.errorBackoff ∧ i.errorBackoff ≤ 120 ∧
  3/10 ≤ i.brief ∧ i.brief ≤ 6/5 ∧
  1/2 ≤ i.dryPause ∧ i.dryPause ≤ 3/2

instance (i : IterIn) : Decidable i.valid := by
  unfold IterIn.valid; infer_instance

/-- The mutable state of run_unfollow_session: the current wall-clock time,
the hour_start and hour_unfollow_count variables, the stats dictionary, and
a log recording, for every real unfollow performed, the hour_start value of
the quota window it was admitted into. -/
structure SessState where
  now : ℚ
  hourStart : ℚ
  hourCount : ℕ
  statsUnfollowed : ℕ
  statsPrivate : ℕ
  statsNotFollowing : ℕ
  statsErrors : ℕ
  mutLog : List ℚ

/-- unfollow.py lines 232-237: reset the hourly window once elapsed time
reaches one hour. -/
def sessTopReset (s : SessState) : SessState :=
  if 3600 ≤ s.now - s.hourStart then
    { s with hourStart := s.now, hourCount := 0 }
  else s

/-- unfollow.py lines 240-241: wait_seconds = 3600 - int(elapsed), clamped
below by 60.  Python int() truncates the nonnegative float elapsed, which is
the floor. -/
def quotaWait (s : SessState) : ℤ :=
  max 60 (3600 - ⌊s.now - s.hourStart⌋)

/-- unfollow.py lines 239-252: when the hourly cap is reached, sleep
wait_seconds // 60 whole minutes, then restart the window. -/
def sessCapWait (s : SessState) : SessState :=
  if MAX_UNFOLLOWS_PER_HOUR ≤ s.hourCount then
    { s with
      now := s.now + ((quotaWait s / 60 * 60 : ℤ) : ℚ),
      hourStart := s.now + ((quotaWait s / 60 * 60 : ℤ) : ℚ),
      hourCount := 0 }
  else s

/-- unfollow.py lines 275-286: the pacing sleep chosen after a processed
target — random_unfollow_delay() (the 170-240 s draw) after an unfollow, the
60-120 s backoff after an error, brief_pause() after either skip. -/
def paceSleep (o : Outcome) (inp : IterIn) : ℚ :=
  match o with
  | .unfollowed => (inp.unfollowDelay : ℚ)
  | .error => (inp.errorBackoff : ℚ)
  | .skipped_private => inp.brief
  | .not_following => inp.brief

/-- unfollow.py lines 254-286: process one target.  In dry-run mode the
target is only logged as unfollowed and a 0.5-1.5 s pause runs (lines
256-260, no counter touched, no browser interaction).  Otherwise
unfollow_user runs, the stats entry of its outcome is incremented, the
hourly counter is incremented exactly on a successful unfollow (lines
265-267), and the pacing sleep of the outcome follows. -/
def sessProcess (dryRun : Bool) (s : SessState) (inp : IterIn) : SessState :=
  if dryRun then
    { s with
      statsUnfollowed := s.statsUnfollowed + 1,
      now := s.now + inp.dryPause }
  else
    match inp.outcome with
    | .unfollowed =>
      { s with
        statsUnfollowed := s.statsUnfollowed + 1,
        hourCount := s.hourCount + 1,
        mutLog := s.mutLog ++ [s.hourStart],
        now := s.now + inp.procTime + paceSleep .unfollowed inp }
    | .skipped_private =>
      { s with
        statsPrivate := s.statsPrivate + 1,
        now := s.now + inp.procTime + paceSleep .skipped_private inp }
    | .not_following =>
      { s with
        statsNotFollowing := s.statsNotFollowing + 1,
        now := s.now + inp.procTime + paceSleep .not_following inp }
    | .error =>
      { s with
        statsErrors := s.statsErrors + 1,
        now := s.now + inp.procTime + paceSleep .error inp }

/-- One full iteration of the target loop: window-reset check, quota gate,
then target processing. -/
def sessStep (dryRun : Bool) (s : SessState) (inp : IterIn) : SessState :=
  sessProcess dryRun (sessCapWait (sessTopReset s)) inp

/-- The state at session start (lines 212-228): counters zero, the hourly
window opened at the current time t0. -/
def sessInit (t0 : ℚ) : SessState :=
  { now := t0, hourStart := t0, hourCount := 0, statsUnfollowed := 0,
    statsPrivate := 0, statsNotFollowing := 0, statsErrors := 0, mutLog := [] }

/-- run_unfollow_session over a queue of targets, one IterIn per target. -/
def run_unfollow_session (dryRun : Bool) (inputs : List IterIn)
    (s : SessState) : SessState :=
  inputs.foldl (sessStep dryRun) s

/-- Invariant tying the hourly counter to the mutation log: the window start
never exceeds the clock, the counter equals the number of logged mutations
admitted into the current window, the counter respects the cap, every
logged window start is no later than the current one, and no window admits
more than the cap of logged mutations. -/
def SessInv (s : SessState) : Prop :=
  s.hourStart ≤ s.now
  ∧ s.mutLog.count s.hourStart = s.hourCount
  ∧ s.hourCount ≤ MAX_UNFOLLOWS_PER_HOUR
  ∧ (∀ w ∈ s.mutLog, w ≤ s.hourStart)
  ∧ (∀ w : ℚ, s.mutLog.count w ≤ MAX_UNFOLLOWS_PER_HOUR)

/-! ## Helper lemmas -/

theorem scroll_modal_aux_succ (marker : ℕ → ℕ) (fuel r : ℕ) (last : ℤ)
    (stale : ℕ) :
    scroll_modal_aux marker (fuel + 1) r last stale =
      if ((marker r : ℤ)) = last then
        (if 3 ≤ stale + 1 then r + 1
         else scroll_modal_aux marker fuel (r + 1) (marker r) (stale + 1))
      else scroll_modal_aux marker fuel (r + 1) (marker r) 0 := rfl

theorem scroll_modal_aux_le (marker : ℕ → ℕ) :
    ∀ fuel r last stale, scroll_modal_aux marker fuel r last stale ≤ r + fuel := by
  intro fuel
  induction fuel with
  | zero => intro r last stale; simp [scroll_modal_aux]
  | succ f ih =>
    intro r last stale
    rw [scroll_modal_aux_succ]
    split_ifs
    · omega
    · exact le_trans (ih (r + 1) _ _) (by omega)
    · exact le_trans (ih (r + 1) _ _) (by omega)

theorem scroll_aux_stable (marker : ℕ → ℕ) (N : ℕ)
    (hconst : ∀ i, N ≤ i → marker i = marker N) :
    ∀ fuel, 3 ≤ fuel →
      scroll_modal_aux marker fuel (N + 1) ((marker N : ℤ)) 0 = N + 4 := by
  intro fuel hf
  obtain ⟨k, rfl⟩ : ∃ k, fuel = k + 3 := ⟨fuel - 3, by omega⟩
  have h1 : marker (N + 1) = marker N := hconst _ (by omega)
  have h2 : marker (N + 2) = marker N := hconst _ (by omega)
  have h3 : marker (N + 3) = marker N := hconst _ (by omega)
  show scroll_modal_aux marker (k + 2 + 1) (N + 1) ((marker N : ℤ)) 0 = N + 4
  rw [scroll_modal_aux_succ, h1, if_pos rfl, if_neg (by omega)]
  show scroll_modal_aux marker (k + 1 + 1) (N + 2) ((marker N : ℤ)) 1 = N + 4
  rw [scroll_modal_aux_succ, h2, if_pos rfl, if_neg (by omega)]
  show scroll_modal_aux marker (k + 0 + 1) (N + 3) ((marker N : ℤ)) 2 = N + 4
  rw [scroll_modal_aux_succ, h3, if_pos rfl, if_pos (by omega)]

theorem scroll_aux_growing (marker : ℕ → ℕ) (N : ℕ)
    (hstrict : ∀ i, i < N → marker i < marker (i + 1))
    (hconst : ∀ i, N ≤ i → marker i = marker N) :
    ∀ k r fuel last, r + k = N + 1 → 1 ≤ k → k + 3 ≤ fuel →
      last ≠ ((marker r : ℤ)) →
      scroll_modal_aux marker fuel r last 0 = N + 4 := by
  intro k
  induction k with
  | zero =>
    intro r fuel last hrk hk
    exact absurd hk (by norm_num)
  | succ k ih =>
    intro r fuel last hrk hk hf hlast
    obtain ⟨f, rfl⟩ : ∃ f, fuel = f + 1 := ⟨fuel - 1, by omega⟩
    rw [scroll_modal_aux_succ, if_neg (fun hh => hlast hh.symm)]
    by_cases hk0 : k = 0
    · subst hk0
      have hrN : r = N := by omega
      rw [hrN]
      exact scroll_aux_stable marker N hconst f (by omega)
    · have hrlt : r < N := by omega
      have hne : marker r ≠ marker (r + 1) := Nat.ne_of_lt (hstrict r hrlt)
      exact ih (r + 1) f ((marker r : ℤ)) (by omega) (by omega) (by omega)
        (fun hh => hne (by exact_mod_cast hh))

theorem hasInfixL_iff (p : List Char) :
    ∀ s, hasInfixL p s = true ↔ p <:+: s := by
  intro s
  induction s with
  | nil =>
    simp [hasInfixL, List.isPrefixOf_iff_prefix, List.infix_nil,
      List.prefix_nil]
  | cons c rest ih =>
    simp [hasInfixL, List.isPrefixOf_iff_prefix, List.infix_cons_iff, ih]

theorem checkLoop_iff (content : String) :
    ∀ phrases, checkLoop phrases content = true ↔
      ∃ p ∈ phrases, phraseHits p content = true := by
  intro phrases
  induction phrases with
  | nil => simp [checkLoop]
  | cons p rest ih =>
    by_cases hp : phraseHits p content = true
    · simp [checkLoop, hp]
    · simp only [checkLoop, if_neg hp, ih]
      simp only [Bool.not_eq_true] at hp
      simp [hp]

theorem pauseChunks_sum : ∀ s : ℕ, (pauseChunks s).sum = s := by
  intro s
  induction s using Nat.strong_induction_on with
  | _ s ih =>
    rw [pauseChunks]
    split_ifs with h
    · simp [h]
    · rw [List.sum_cons,
        ih (s - 60) (Nat.sub_lt (Nat.pos_of_ne_zero h) (by norm_num))]
      omega

theorem pauseChunks_bounds :
    ∀ s : ℕ, ∀ c ∈ pauseChunks s, 0 < c ∧ c ≤ 60 := by
  intro s
  induction s using Nat.strong_induction_on with
  | _ s ih =>
    intro c hc
    rw [pauseChunks] at hc
    split_ifs at hc with h
    · simp at hc
    · rcases List.mem_cons.mp hc with h1 | h1
      · subst h1
        exact ⟨by omega, by omega⟩
      · exact ih (s - 60) (Nat.sub_lt (Nat.pos_of_ne_zero h) (by norm_num)) c h1

theorem extractLoop_spec :
    ∀ hrefs seen, (extractLoop hrefs seen).Nodup ∧
      ∀ u ∈ extractLoop hrefs seen, u ∉ seen := by
  intro hrefs
  induction hrefs with
  | nil => intro seen; simp [extractLoop]
  | cons href rest ih =>
    intro seen
    unfold extractLoop
    cases hrefUsername href with
    | none => exact ih seen
    | some uname =>
      simp only
      split_ifs with hcond
      · obtain ⟨ihn, ihm⟩ := ih (uname :: seen)
        refine ⟨List.nodup_cons.mpr ⟨?_, ihn⟩, ?_⟩
        · intro hmem
          exact ihm uname hmem (List.mem_cons_self uname seen)
        · intro u hu
          rcases List.mem_cons.mp hu with h1 | h1
          · subst h1; exact hcond.2.2
          · intro huseen
            exact ihm u h1 (List.mem_cons_of_mem _ huseen)
      · exact ih seen

theorem mem_insertSorted (x y : String) :
    ∀ l, x ∈ insertSorted y l ↔ x = y ∨ x ∈ l := by
  intro l
  induction l with
  | nil => simp [insertSorted]
  | cons a t ih =>
    unfold insertSorted
    split_ifs with h
    · simp [List.mem_cons]
    · simp only [List.mem_cons, ih]
      tauto

theorem mem_sortStrings (x : String) : ∀ l, x ∈ sortStrings l ↔ x ∈ l := by
  intro l
  induction l with
  | nil => simp [sortStrings]
  | cons a t ih =>
    show x ∈ insertSorted a (sortStrings t) ↔ _
    rw [mem_insertSorted]
    simp [ih]

theorem normList_nil : normList [] = [] := rfl

theorem compare_filter_empty_followers (F W : List String) :
    ((normList F).filter
        (fun u => decide (u ∉ normList [] ∧ u ∉ normList W)))
      = ((normList F).filter (fun u => decide (u ∉ normList W))) := by
  apply List.filter_congr
  intro u _
  simp [normList_nil]

theorem sessInit_inv (t0 : ℚ) : SessInv (sessInit t0) := by
  refine ⟨le_refl _, ?_, ?_, ?_, ?_⟩
  · simp [sessInit]
  · simp [sessInit]
  · intro w hw
    simp [sessInit] at hw
  · intro w
    simp [sessInit, MAX_UNFOLLOWS_PER_HOUR]

theorem sessTopReset_inv (s : SessState) (h : SessInv s) :
    SessInv (sessTopReset s) := by
  obtain ⟨h1, h2, h3, h4, h5⟩ := h
  unfold sessTopReset
  split_ifs with hc
  · have hlt : s.hourStart < s.now := by linarith
    refine ⟨le_refl _, ?_, by simp [MAX_UNFOLLOWS_PER_HOUR], ?_, h5⟩
    · show s.mutLog.count s.now = 0
      rw [List.count_eq_zero]
      intro hmem
      exact absurd (h4 _ hmem) (by linarith)
    · intro w hw
      exact le_of_lt (lt_of_le_of_lt (h4 w hw) hlt)
  · exact ⟨h1, h2, h3, h4, h5⟩

theorem quotaWait_ge (s : SessState) : (60 : ℤ) ≤ quotaWait s :=
  le_max_left _ _

theorem quotaWait_sleep_ge (s : SessState) :
    (60 : ℤ) ≤ quotaWait s / 60 * 60 := by
  have h1 : (1 : ℤ) ≤ quotaWait s / 60 := by
    rw [Int.le_ediv_iff_mul_le (by norm_num)]
    have := quotaWait_ge s
    omega
  nlinarith

theorem sessCapWait_inv (s : SessState) (h : SessInv s) :
    SessInv (sessCapWait s)
    ∧ (sessCapWait s).hourCount + 1 ≤ MAX_UNFOLLOWS_PER_HOUR := by
  obtain ⟨h1, h2, h3, h4, h5⟩ := h
  unfold sessCapWait
  split_ifs with hc
  · have hsleptQ : (60 : ℚ) ≤ ((quotaWait s / 60 * 60 : ℤ) : ℚ) := by
      exact_mod_cast quotaWait_sleep_ge s
    refine ⟨⟨le_refl _, ?_, by simp [MAX_UNFOLLOWS_PER_HOUR], ?_, h5⟩, ?_⟩
    · show s.mutLog.count (s.now + ((quotaWait s / 60 * 60 : ℤ) : ℚ)) = 0
      rw [List.count_eq_zero]
      intro hmem
      have := h4 _ hmem
      linarith
    · intro w hw
      have := h4 w hw
      linarith
    · simp [MAX_UNFOLLOWS_PER_HOUR]
  · refine ⟨⟨h1, h2, h3, h4, h5⟩, ?_⟩
    unfold MAX_UNFOLLOWS_PER_HOUR at hc ⊢
    omega

theorem sessProcess_inv (dryRun : Bool) (s : SessState) (inp : IterIn)
    (h : SessInv s) (hcap : s.hourCount + 1 ≤ MAX_UNFOLLOWS_PER_HOUR)
    (hv : inp.valid) : SessInv (sessProcess dryRun s inp) := by
  obtain ⟨h1, h2, h3, h4, h5⟩ := h
  obtain ⟨hp, hu1, hu2, he1, he2, hb1, hb2, hd1, hd2⟩ := hv
  have hu0 : (0 : ℚ) ≤ (inp.unfollowDelay : ℚ) := Nat.cast_nonneg _
  have he0 : (0 : ℚ) ≤ (inp.errorBackoff : ℚ) := Nat.cast_nonneg _
  unfold sessProcess
  split_ifs with hd
  · exact ⟨show s.hourStart ≤ s.now + inp.dryPause by linarith, h2, h3, h4, h5⟩
  · cases hout : inp.outcome
    · simp only [hout, paceSleep]
      refine ⟨show s.hourStart ≤ s.now + inp.procTime + (inp.unfollowDelay : ℚ)
        by linarith, ?_, hcap, ?_, ?_⟩
      · show (s.mutLog ++ [s.hourStart]).count s.hourStart = s.hourCount + 1
        rw [List.count_append, h2]
        simp
      · intro w hw
        rcases List.mem_append.mp hw with hmem | hmem
        · exact h4 w hmem
        · simp at hmem
          exact le_of_eq hmem
      · intro w
        show (s.mutLog ++ [s.hourStart]).count w ≤ MAX_UNFOLLOWS_PER_HOUR
        rw [List.count_append]
        by_cases hww : w = s.hourStart
        · subst hww
          rw [h2]
          simpa using hcap
        · have : [s.hourStart].count w = 0 := by
            rw [List.count_eq_zero]
            simp [hww]
          rw [this]
          simpa using h5 w
    · simp only [hout, paceSleep]
      exact ⟨show s.hourStart ≤ s.now + inp.procTime + inp.brief by linarith,
        h2, h3, h4, h5⟩
    · simp only [hout, paceSleep]
      exact ⟨show s.hourStart ≤ s.now + inp.procTime + inp.brief by linarith,
        h2, h3, h4, h5⟩
    · simp only [hout, paceSleep]
      exact ⟨show s.hourStart ≤ s.now + inp.procTime + (inp.errorBackoff : ℚ)
        by linarith, h2, h3, h4, h5⟩

theorem sessStep_inv (dryRun : Bool) (s : SessState) (inp : IterIn)
    (h : SessInv s) (hv : inp.valid) : SessInv (sessStep dryRun s inp) := by
  unfold sessStep
  have ht := sessTopReset_inv s h
  have hcw := sessCapWait_inv _ ht
  exact sessProcess_inv dryRun _ inp hcw.1 hcw.2 hv

theorem run_session_inv (dryRun : Bool) :
    ∀ (inputs : List IterIn) (s : SessState), SessInv s →
      (∀ i ∈ inputs, i.valid) →
      SessInv (run_unfollow_session dryRun inputs s) := by
  intro inputs
  induction inputs with
  | nil => intro s h _; exact h
  | cons i rest ih =>
    intro s h hv
    have hstep : run_unfollow_session dryRun (i :: rest) s
        = run_unfollow_session dryRun rest (sessStep dryRun s i) := by
      simp [run_unfollow_session]
    rw [hstep]
    exact ih _ (sessStep_inv dryRun s i h (hv i (by simp)))
      (fun j hj => hv j (List.mem_cons_of_mem _ hj))

theorem sessStep_dry (s : SessState) (i : IterIn) (h : s.hourCount = 0) :
    (sessStep true s i).statsUnfollowed = s.statsUnfollowed + 1
    ∧ (sessStep true s i).statsPrivate = s.statsPrivate
    ∧ (sessStep true s i).statsNotFollowing = s.statsNotFollowing
    ∧ (sessStep true s i).statsErrors = s.statsErrors
    ∧ (sessStep true s i).mutLog = s.mutLog
    ∧ (sessStep true s i).hourCount = 0
    ∧ (sessStep true s i).now = s.now + i.dryPause := by
  unfold sessStep sessTopReset sessCapWait sessProcess
  split_ifs with hc1 hc2 <;>
    simp_all [MAX_UNFOLLOWS_PER_HOUR]

theorem dry_run_fold :
    ∀ (inputs : List IterIn) (s : SessState), s.hourCount = 0 →
      (run_unfollow_session true inputs s).statsUnfollowed
          = s.statsUnfollowed + inputs.length
      ∧ (run_unfollow_session true inputs s).statsPrivate = s.statsPrivate
      ∧ (run_unfollow_session true inputs s).statsNotFollowing
          = s.statsNotFollowing
      ∧ (run_unfollow_session true inputs s).statsErrors = s.statsErrors
      ∧ (run_unfollow_session true inputs s).mutLog = s.mutLog
      ∧ (run_unfollow_session true inputs s).hourCount = 0
      ∧ (run_unfollow_session true inputs s).now
          = s.now + (inputs.map (fun i => i.dryPause)).sum := by
  intro inputs
  induction inputs with
  | nil =>
    intro s h
    refine ⟨by simp [run_unfollow_session], by simp [run_unfollow_session],
      by simp [run_unfollow_session], by simp [run_unfollow_session],
      by simp [run_unfollow_session], by simpa [run_unfollow_session] using h,
      by simp [run_unfollow_session]⟩
  | cons i rest ih =>
    intro s h
    have hs := sessStep_dry s i h
    have hrun : run_unfollow_session true (i :: rest) s
        = run_unfollow_session true rest (sessStep true s i) := by
      simp [run_unfollow_session]
    obtain ⟨A, B, C, D, E, F, G⟩ := ih (sessStep true s i) hs.2.2.2.2.2.1
    rw [hrun]
    refine ⟨?_, ?_, ?_, ?_, ?_, F, ?_⟩
    · rw [A, hs.1]
      simp [Nat.add_assoc, Nat.add_comm 1]
    · rw [B, hs.2.1]
    · rw [C, hs.2.2.1]
    · rw [D, hs.2.2.2.1]
    · rw [E, hs.2.2.2.2.1]
    · rw [G, hs.2.2.2.2.2.2]
      simp [List.map_cons, List.sum_cons]
      ring

theorem dryPause_sum_bounds :
    ∀ (l : List IterIn), (∀ i ∈ l, i.valid) →
      (1/2 : ℚ) * l.length ≤ (l.map (fun i => i.dryPause)).sum
      ∧ (l.map (fun i => i.dryPause)).sum ≤ (3/2 : ℚ) * l.length := by
  intro l
  induction l with
  | nil => intro _; simp
  | cons i rest ih =>
    intro hv
    obtain ⟨_, _, _, _, _, _, _, hd1, hd2⟩ := hv i (by simp)
    obtain ⟨ih1, ih2⟩ := ih (fun j hj => hv j (List.mem_cons_of_mem _ hj))
    constructor
    · simp only [List.map_cons, List.sum_cons, List.length_cons]
      push_cast
      linarith
    · simp only [List.map_cons, List.sum_cons, List.length_cons]
      push_cast
      linarith

/-! ## Claims -/

/-- C8: the rate-signal monitor is a pure function of its input text:
check_for_rate_limit returns true exactly when some phrase of the fixed
marker list occurs in the content as a contiguous substring under
case-insensitive (lower-cased) comparison.  The embedding is a function of
the text alone, so it retains no state and has no side effects. -/
theorem rate_signal_monitor_pure (content : String) :
    check_for_rate_limit content = true ↔
      ∃ p ∈ RATE_LIMIT_PHRASES,
        (toLowerL p.data) <:+: (toLowerL content.data) := by
  rw [check_for_rate_limit, checkLoop_iff]
  constructor
  · rintro ⟨p, hp, hhit⟩
    exact ⟨p, hp, (hasInfixL_iff _ _).mp hhit⟩
  · rintro ⟨p, hp, hinf⟩
    exact ⟨p, hp, (hasInfixL_iff _ _).mpr hinf⟩

/-- C6: with a false monitor result the cooldown controller performs no
sleep at all; with a true result it performs a schedule of sleep chunks
whose total equals the sampled duration (between 600 and 1200 seconds for
the default 10-20 minute range), every chunk positive and at most 60
seconds long — each chunk being preceded by one progress log line in the
source, so a progress signal is emitted at least once per 60 seconds — and
the schedule is a single finite list, so control returns exactly once per
triggering detection. -/
theorem cooldown_controller_pause (s : ℕ) (h1 : 600 ≤ s) (h2 : s ≤ 1200) :
    auto_pause_after_rate_limit false s = []
    ∧ (auto_pause_after_rate_limit true s).sum = s
    ∧ 600 ≤ (auto_pause_after_rate_limit true s).sum
    ∧ (auto_pause_after_rate_limit true s).sum ≤ 1200
    ∧ ∀ c ∈ auto_pause_after_rate_limit true s, 0 < c ∧ c ≤ 60 := by
  have hsum : (auto_pause_after_rate_limit true s).sum = s := by
    simp [auto_pause_after_rate_limit, pauseChunks_sum]
  refine ⟨rfl, hsum, ?_, ?_, ?_⟩
  · rw [hsum]; exact h1
  · rw [hsum]; exact h2
  · intro c hc
    exact pauseChunks_bounds s c (by simpa [auto_pause_after_rate_limit] using hc)

/-- C6 witness: the controller applied to a concrete 660-second sample. -/
theorem cooldown_controller_pause_witness :
    (600 ≤ 660 ∧ 660 ≤ 1200)
    ∧ (auto_pause_after_rate_limit false 660 = []
       ∧ (auto_pause_after_rate_limit true 660).sum = 660
       ∧ 600 ≤ (auto_pause_after_rate_limit true 660).sum
       ∧ (auto_pause_after_rate_limit true 660).sum ≤ 1200
       ∧ ∀ c ∈ auto_pause_after_rate_limit true 660, 0 < c ∧ c ≤ 60) :=
  ⟨⟨by norm_num, by norm_num⟩,
    cooldown_controller_pause 660 (by norm_num) (by norm_num)⟩

/-- C9: loading a missing or malformed whitelist file yields the empty
whitelist, the run proceeds (the loaders are total on every observable file
shape), subtraction then removes nothing — compare with an unreadable
whitelist file subtracts only the followers set — and the identical loader
serves the following and followers snapshot files, whose missing or
malformed content likewise loads as the empty list. -/
theorem load_error_handling_total :
    (load_json_list .missing = [] ∧ load_json_list .malformed = [])
    ∧ (load_whitelist .missing = [] ∧ load_whitelist .malformed = [])
    ∧ (∀ F fo : List String,
        compare ⟨.jlist [], .jlist [], .missing⟩ (some F) (some fo)
          = sortStrings (((normList F).filter
              (fun u => decide (u ∉ normList fo))).dedup))
    ∧ (∀ F fo : List String,
        compare ⟨.jlist [], .jlist [], .malformed⟩ (some F) (some fo)
          = sortStrings (((normList F).filter
              (fun u => decide (u ∉ normList fo))).dedup))
    ∧ compare ⟨.missing, .malformed, .missing⟩ none none = [] := by
  refine ⟨⟨rfl, rfl⟩, ⟨rfl, rfl⟩, ?_, ?_, rfl⟩
  · intro F fo
    show sortStrings (((normList F).filter
      (fun u => decide (u ∉ normList fo ∧ u ∉ normList []))).dedup) = _
    rw [show ∀ l : List String,
        (l.filter (fun u => decide (u ∉ normList fo ∧ u ∉ normList [])))
          = (l.filter (fun u => decide (u ∉ normList fo))) from
      fun l => List.filter_congr (fun u _ => by simp [normList_nil])]
  · intro F fo
    show sortStrings (((normList F).filter
      (fun u => decide (u ∉ normList fo ∧ u ∉ normList []))).dedup) = _
    rw [show ∀ l : List String,
        (l.filter (fun u => decide (u ∉ normList fo ∧ u ∉ normList [])))
          = (l.filter (fun u => decide (u ∉ normList fo))) from
      fun l => List.filter_congr (fun u _ => by simp [normList_nil])]

/-- C1 counterexample: with the followers snapshot file holding bob, the
resolver called with followers=None subtracts bob as well, so the result is
not sort(normalize(F) − normalize(W)). -/
theorem compare_modeA_counterexample :
    compare ⟨.jlist [], .jlist ["bob"], .jdict (some [])⟩
        (some ["alice", "bob"]) none = ["alice"]
    ∧ spec_mode_a ["alice", "bob"]
        (load_json_list (.jdict (some []))) = ["alice", "bob"]
    ∧ (["alice"] : List String) ≠ ["alice", "bob"] := by decide

/-- C1 amended: invoked with the followers argument absent, compare loads
the followers snapshot from data/followers.json and subtracts it in
addition to the whitelist — for every following list and every observable
shape of the three data files,
result = sort(normalize(F) − normalize(loaded followers) − normalize(W)),
and extensionally an identifier appears in the result exactly when it lies
in normalize(F) and in neither the normalized loaded followers snapshot
nor the normalized whitelist. -/
theorem compare_modeA_subtracts_followers (F : List String) (env : FileEnv) :
    compare env (some F) none
      = sortStrings (((normList F).filter
          (fun u => decide (u ∉ normList (load_json_list env.followersFile)
            ∧ u ∉ normList (load_json_list env.whitelistFile)))).dedup)
    ∧ (∀ x : String,
        x ∈ compare env (some F) none ↔
          x ∈ normList F
          ∧ x ∉ normList (load_json_list env.followersFile)
          ∧ x ∉ normList (load_json_list env.whitelistFile)) := by
  refine ⟨rfl, ?_⟩
  intro x
  show x ∈ sortStrings (((normList F).filter
      (fun u => decide (u ∉ normList (load_json_list env.followersFile)
        ∧ u ∉ normList (load_json_list env.whitelistFile)))).dedup) ↔ _
  rw [mem_sortStrings, List.mem_dedup, List.mem_filter]
  simp [decide_eq_true_eq]

/-- C5 counterexample: two hrefs whose usernames differ only in case are
both returned — the extractor de-duplicates on the raw username, not on the
normalized (trimmed, lower-cased) form, so the result contains two
identifiers with equal normalized forms. -/
theorem extract_dedup_counterexample :
    extract_usernames
        ["https://www.instagram.com/Alice/", "https://www.instagram.com/alice/"]
      = ["Alice", "alice"]
    ∧ normOne "Alice" = normOne "alice"
    ∧ ("Alice" : String) ≠ "alice" := by decide

/-- C5 amended: the harvester de-duplicates by exact (case-sensitive,
untrimmed) identifier equality: no two returned identifiers are equal as
raw strings, but identifiers that agree only after normalization can both
appear. -/
theorem extract_usernames_nodup (hrefs : List String) :
    (extract_usernames hrefs).Nodup :=
  (extractLoop_spec hrefs []).1

/-- C3 counterexample: three attempts, all judged incomplete against the
expected count 10; the first attempt accumulated eight identifiers, the
later ones a single identifier.  After retries are exhausted the harvest
returns the last attempt, not the largest accumulated set. -/
theorem scrape_best_set_counterexample :
    scrape_following
        ⟨true, 10, ["u1", "u2", "u3", "u4", "u5", "u6", "u7", "u8"]⟩
        ⟨true, 10, ["v1"]⟩
        ⟨true, 10, ["w1"]⟩
      = ["w1"]
    ∧ (1 : ℕ) < 8
    ∧ judged_incomplete
        ⟨true, 10, ["u1", "u2", "u3", "u4", "u5", "u6", "u7", "u8"]⟩ := by
  refine ⟨by decide, by norm_num, by decide⟩

/-- C3 amended: with an expected count obtained, an attempt is judged
incomplete exactly when its size is strictly below the truncated threshold
int(0.9 * expected) (so a size equal to the truncation passes even when
strictly below 90 percent); an accepted first attempt is returned as is;
when all three attempts locate the modal and are judged incomplete, the two
retries are consumed and the harvest returns the third (last) attempt, not
the largest across attempts; and the harvest always returns one of the
attempt extractions or the empty list, never failing the run on a count
mismatch. -/
theorem scrape_retry_policy (a1 a2 a3 : Attempt)
    (h1 : a1.modalFound = true) (h2 : a2.modalFound = true)
    (h3 : a3.modalFound = true) :
    (¬ judged_incomplete a1 → scrape_following a1 a2 a3 = a1.extracted)
    ∧ (judged_incomplete a1 → judged_incomplete a2 → judged_incomplete a3 →
        scrape_following a1 a2 a3 = a3.extracted)
    ∧ (scrape_following a1 a2 a3 = a1.extracted
        ∨ scrape_following a1 a2 a3 = a2.extracted
        ∨ scrape_following a1 a2 a3 = a3.extracted
        ∨ scrape_following a1 a2 a3 = []) := by
  simp only [scrape_following, scrape_loop, h1, h2, h3]
  norm_num
  split_ifs <;> tauto

/-- C3 witness: the amended retry policy at the counterexample input. -/
theorem scrape_retry_policy_witness :
    ((⟨true, 10, ["u1", "u2"]⟩ : Attempt).modalFound = true
      ∧ (⟨true, 10, ["v1"]⟩ : Attempt).modalFound = true
      ∧ (⟨true, 10, ["w1"]⟩ : Attempt).modalFound = true)
    ∧ ((¬ judged_incomplete ⟨true, 10, ["u1", "u2"]⟩ →
          scrape_following ⟨true, 10, ["u1", "u2"]⟩ ⟨true, 10, ["v1"]⟩
            ⟨true, 10, ["w1"]⟩ = ["u1", "u2"])
      ∧ (judged_incomplete ⟨true, 10, ["u1", "u2"]⟩ →
          judged_incomplete ⟨true, 10, ["v1"]⟩ →
          judged_incomplete ⟨true, 10, ["w1"]⟩ →
          scrape_following ⟨true, 10, ["u1", "u2"]⟩ ⟨true, 10, ["v1"]⟩
            ⟨true, 10, ["w1"]⟩ = ["w1"])
      ∧ (scrape_following ⟨true, 10, ["u1", "u2"]⟩ ⟨true, 10, ["v1"]⟩
            ⟨true, 10, ["w1"]⟩ = ["u1", "u2"]
          ∨ scrape_following ⟨true, 10, ["u1", "u2"]⟩ ⟨true, 10, ["v1"]⟩
              ⟨true, 10, ["w1"]⟩ = ["v1"]
          ∨ scrape_following ⟨true, 10, ["u1", "u2"]⟩ ⟨true, 10, ["v1"]⟩
              ⟨true, 10, ["w1"]⟩ = ["w1"]
          ∨ scrape_following ⟨true, 10, ["u1", "u2"]⟩ ⟨true, 10, ["v1"]⟩
              ⟨true, 10, ["w1"]⟩ = [])) :=
  ⟨⟨rfl, rfl, rfl⟩,
    scrape_retry_policy ⟨true, 10, ["u1", "u2"]⟩ ⟨true, 10, ["v1"]⟩
      ⟨true, 10, ["w1"]⟩ rfl rfl rfl⟩

/-- C7: the post-target sleep is exactly the pacing draw of the target's
outcome and nothing else — the executor's clock advances by the processing
time plus paceSleep of the outcome; the draw is 170-240 s after an
unfollow, 60-120 s after an error, and the 0.3-1.2 s brief pause after
either skip, so a target classified private (or already not followed) never
incurs the 170-240 s interval. -/
theorem pacing_by_outcome (inp : IterIn) (hv : inp.valid) :
    (∀ s : SessState, (sessProcess false s inp).now
        = s.now + inp.procTime + paceSleep inp.outcome inp)
    ∧ paceSleep .unfollowed inp = (inp.unfollowDelay : ℚ)
    ∧ 170 ≤ (inp.unfollowDelay : ℚ) ∧ (inp.unfollowDelay : ℚ) ≤ 240
    ∧ paceSleep .error inp = (inp.errorBackoff : ℚ)
    ∧ 60 ≤ (inp.errorBackoff : ℚ) ∧ (inp.errorBackoff : ℚ) ≤ 120
    ∧ paceSleep .skipped_private inp = inp.brief
    ∧ paceSleep .not_following inp = inp.brief
    ∧ 3/10 ≤ inp.brief ∧ inp.brief ≤ 6/5
    ∧ paceSleep .skipped_private inp < 170 := by
  obtain ⟨hp, hu1, hu2, he1, he2, hb1, hb2, hd1, hd2⟩ := hv
  refine ⟨?_, rfl, by exact_mod_cast hu1, by exact_mod_cast hu2, rfl,
    by exact_mod_cast he1, by exact_mod_cast he2, rfl, rfl, hb1, hb2, ?_⟩
  · intro s
    cases h : inp.outcome <;> simp [sessProcess, h]
  · show inp.brief < 170
    linarith

/-- C7 witness: the pacing characterization at a concrete private-skip
iteration. -/
theorem pacing_by_outcome_witness :
    (IterIn.mk .skipped_private 1 200 80 (1/2) 1).valid
    ∧ paceSleep .skipped_private (IterIn.mk .skipped_private 1 200 80 (1/2) 1)
        = 1/2
    ∧ paceSleep .skipped_private (IterIn.mk .skipped_private 1 200 80 (1/2) 1)
        < 170 :=
  ⟨by norm_num [IterIn.valid],
    (pacing_by_outcome _ (by norm_num [IterIn.valid])).2.2.2.2.2.2.2.1,
    (pacing_by_outcome _ (by norm_num [IterIn.valid])).2.2.2.2.2.2.2.2.2.2.2⟩

/-- C4: a scroll pass always executes at most the bounded maximum of 200
rounds, whatever marker trace the source produces; and against a source
whose extent marker grows strictly for N rounds and is then unchanged (with
N within the round budget), the pass stops right after the marker has been
observed unchanged on 3 consecutive rounds — at exactly N + 4 executed
rounds — and the subsequent extraction reads the stabilized container, the
N-round union. -/
theorem scroll_pass_convergence (marker : ℕ → ℕ)
    (content : ℕ → Finset String) (N : ℕ) :
    scroll_modal_rounds marker ≤ 200
    ∧ (N ≤ 196 →
        (∀ i, i < N → marker i < marker (i + 1)) →
        (∀ i, N ≤ i → marker i = marker N) →
        (∀ i, N ≤ i → content i = content N) →
        scroll_modal_rounds marker = N + 4
        ∧ scroll_harvest marker content = content N) := by
  constructor
  · exact le_trans (scroll_modal_aux_le marker MAX_SCROLL_ROUNDS 0 (-1) 0)
      (by norm_num [MAX_SCROLL_ROUNDS])
  · intro hN hstrict hconst hcontent
    have hrounds : scroll_modal_rounds marker = N + 4 := by
      unfold scroll_modal_rounds MAX_SCROLL_ROUNDS
      exact scroll_aux_growing marker N hstrict hconst (N + 1) 0 200 (-1)
        (by omega) (by omega) (by omega) (by intro hh; omega)
    refine ⟨hrounds, ?_⟩
    unfold scroll_harvest
    rw [hrounds, show N + 4 - 1 = N + 3 from rfl, hcontent (N + 3) (by omega)]

/-- C4 witness: a source that never grows (N = 0, constant marker) stops
after 4 rounds and yields the stabilized content. -/
theorem scroll_pass_convergence_witness :
    (0 ≤ 196)
    ∧ scroll_modal_rounds (fun _ => 5) ≤ 200
    ∧ scroll_modal_rounds (fun _ => 5) = 0 + 4
    ∧ scroll_harvest (fun _ => 5) (fun _ => ({"done"} : Finset String))
        = {"done"} := by
  have h := scroll_pass_convergence (fun _ => 5)
    (fun _ => ({"done"} : Finset String)) 0
  have h2 := h.2 (by norm_num) (fun i hi => absurd hi (Nat.not_lt_zero i))
    (fun i _ => rfl) (fun i _ => rfl)
  exact ⟨by norm_num, h.1, h2.1, h2.2⟩

/-- C2: across any execution of the mutation loop, no quota window — the
span between two consecutive resets of hour_start, each roughly one hour
long — ever admits more than the cap of MAX_UNFOLLOWS_PER_HOUR = 20 real
unfollows: every logged mutation carries the hour_start of the window that
admitted it, and no hour_start value carries more than 20.  And once the
cap is reached, the computed wait equals the window length minus the
truncated elapsed time, clamped to a minimum of 60 seconds; the gate then
sleeps that wait rounded down to whole minutes and reopens the window with
a zero count, never having admitted a mutation past the cap. -/
theorem session_quota_ceiling_and_wait (dryRun : Bool)
    (inputs : List IterIn) (t0 : ℚ) (hv : ∀ i ∈ inputs, i.valid) :
    (∀ w : ℚ,
      ((run_unfollow_session dryRun inputs (sessInit t0)).mutLog.count w)
        ≤ MAX_UNFOLLOWS_PER_HOUR)
    ∧ (∀ s : SessState, MAX_UNFOLLOWS_PER_HOUR ≤ s.hourCount →
        quotaWait s = max 60 (3600 - ⌊s.now - s.hourStart⌋)
        ∧ 60 ≤ quotaWait s
        ∧ (sessCapWait s).now = s.now + ((quotaWait s / 60 * 60 : ℤ) : ℚ)
        ∧ (sessCapWait s).hourCount = 0) := by
  constructor
  · exact (run_session_inv dryRun inputs (sessInit t0)
      (sessInit_inv t0) hv).2.2.2.2
  · intro s hcap
    refine ⟨rfl, quotaWait_ge s, ?_, ?_⟩
    · show (sessCapWait s).now = _
      unfold sessCapWait
      rw [if_pos hcap]
    · show (sessCapWait s).hourCount = 0
      unfold sessCapWait
      rw [if_pos hcap]

/-- C2 witness: the ceiling on a concrete one-target run and the wait
formula at a concrete capped state. -/
theorem session_quota_ceiling_and_wait_witness :
    (∀ i ∈ [IterIn.mk Outcome.unfollowed 5 200 80 1 1], i.valid)
    ∧ ((run_unfollow_session false [IterIn.mk Outcome.unfollowed 5 200 80 1 1]
          (sessInit 0)).mutLog.count 0 ≤ MAX_UNFOLLOWS_PER_HOUR)
    ∧ MAX_UNFOLLOWS_PER_HOUR ≤ (SessState.mk 100 0 20 0 0 0 0 []).hourCount
    ∧ (quotaWait (SessState.mk 100 0 20 0 0 0 0 [])
          = max 60 (3600 - ⌊(SessState.mk 100 0 20 0 0 0 0 []).now
              - (SessState.mk 100 0 20 0 0 0 0 []).hourStart⌋)
        ∧ 60 ≤ quotaWait (SessState.mk 100 0 20 0 0 0 0 [])
        ∧ (sessCapWait (SessState.mk 100 0 20 0 0 0 0 [])).now
            = (SessState.mk 100 0 20 0 0 0 0 []).now
              + ((quotaWait (SessState.mk 100 0 20 0 0 0 0 []) / 60 * 60 : ℤ) : ℚ)
        ∧ (sessCapWait (SessState.mk 100 0 20 0 0 0 0 [])).hourCount = 0) := by
  have hv : ∀ i ∈ [IterIn.mk Outcome.unfollowed 5 200 80 1 1], i.valid := by
    intro i hi
    simp only [List.mem_singleton] at hi
    subst hi
    norm_num [IterIn.valid]
  have hcap : MAX_UNFOLLOWS_PER_HOUR
      ≤ (SessState.mk 100 0 20 0 0 0 0 []).hourCount := by
    norm_num [MAX_UNFOLLOWS_PER_HOUR]
  have h := session_quota_ceiling_and_wait false
    [IterIn.mk Outcome.unfollowed 5 200 80 1 1] 0 hv
  exact ⟨hv, h.1 0, hcap, h.2 _ hcap⟩

/-- C10: in dry-run mode the hourly-quota wait branch is unreachable — the
counter stays zero for the whole run (and in a real run it is incremented
exactly when an unfollow succeeds), every target is counted as mutated with
no other outcome recorded and no mutation logged, and the clock advances by
exactly the sum of the 0.5-1.5 s dry-run pauses, so between half a second
and one and a half seconds per target and never a quota sleep, whatever the
number of targets. -/
theorem dry_run_no_quota_sleep (inputs : List IterIn) (t0 : ℚ)
    (hv : ∀ i ∈ inputs, i.valid) :
    (run_unfollow_session true inputs (sessInit t0)).statsUnfollowed
        = inputs.length
    ∧ (run_unfollow_session true inputs (sessInit t0)).statsPrivate = 0
    ∧ (run_unfollow_session true inputs (sessInit t0)).statsNotFollowing = 0
    ∧ (run_unfollow_session true inputs (sessInit t0)).statsErrors = 0
    ∧ (run_unfollow_session true inputs (sessInit t0)).mutLog = []
    ∧ (run_unfollow_session true inputs (sessInit t0)).hourCount = 0
    ∧ (run_unfollow_session true inputs (sessInit t0)).now
        = t0 + (inputs.map (fun i => i.dryPause)).sum
    ∧ t0 + (1/2 : ℚ) * inputs.length
        ≤ (run_unfollow_session true inputs (sessInit t0)).now
    ∧ (run_unfollow_session true inputs (sessInit t0)).now
        ≤ t0 + (3/2 : ℚ) * inputs.length
    ∧ (∀ (s : SessState) (i : IterIn),
        (sessProcess true s i).hourCount = s.hourCount)
    ∧ (∀ (s : SessState) (i : IterIn),
        (sessProcess false s i).hourCount
          = s.hourCount + (if i.outcome = Outcome.unfollowed then 1 else 0)) := by
  obtain ⟨A, B, C, D, E, F, G⟩ := dry_run_fold inputs (sessInit t0) rfl
  obtain ⟨S1, S2⟩ := dryPause_sum_bounds inputs hv
  refine ⟨by simpa [sessInit] using A, by simpa [sessInit] using B,
    by simpa [sessInit] using C, by simpa [sessInit] using D,
    by simpa [sessInit] using E, F, by simpa [sessInit] using G,
    ?_, ?_, ?_, ?_⟩
  · rw [show (run_unfollow_session true inputs (sessInit t0)).now
        = t0 + (inputs.map (fun i => i.dryPause)).sum
      from by simpa [sessInit] using G]
    linarith
  · rw [show (run_unfollow_session true inputs (sessInit t0)).now
        = t0 + (inputs.map (fun i => i.dryPause)).sum
      from by simpa [sessInit] using G]
    linarith
  · intro s i
    rfl
  · intro s i
    cases hout : i.outcome <;> simp [sessProcess, hout]

/-- C10 witness: a concrete two-target dry run. -/
theorem dry_run_no_quota_sleep_witness :
    (∀ i ∈ [IterIn.mk Outcome.unfollowed 5 200 80 1 1,
            IterIn.mk Outcome.error 5 200 80 1 1], i.valid)
    ∧ (run_unfollow_session true
          [IterIn.mk Outcome.unfollowed 5 200 80 1 1,
           IterIn.mk Outcome.error 5 200 80 1 1]
          (sessInit 0)).statsUnfollowed
        = ([IterIn.mk Outcome.unfollowed 5 200 80 1 1,
            IterIn.mk Outcome.error 5 200 80 1 1] : List IterIn).length
    ∧ (run_unfollow_session true
          [IterIn.mk Outcome.unfollowed 5 200 80 1 1,
           IterIn.mk Outcome.error 5 200 80 1 1]
          (sessInit 0)).mutLog = []
    ∧ (run_unfollow_session true
          [IterIn.mk Outcome.unfollowed 5 200 80 1 1,
           IterIn.mk Outcome.error 5 200 80 1 1]
          (sessInit 0)).hourCount = 0 := by
  have hv : ∀ i ∈ [IterIn.mk Outcome.unfollowed 5 200 80 1 1,
      IterIn.mk Outcome.error 5 200 80 1 1], i.valid := by
    intro i hi
    simp only [List.mem_cons, List.mem_singleton, List.not_mem_nil,
      or_false] at hi
    rcases hi with hi | hi <;> (subst hi; norm_num [IterIn.valid])
  have h := dry_run_no_quota_sleep
    [IterIn.mk Outcome.unfollowed 5 200 80 1 1,
     IterIn.mk Outcome.error 5 200 80 1 1] 0 hv
  exact ⟨hv, h.1, h.2.2.2.2.1, h.2.2.2.2.2.1⟩

end Bot
